import Mathlib

set_option maxRecDepth 8000

/-!
Verification development for the booking application in `booking.py`
(Flask + SQLAlchemy service with three endpoints: bulk CSV data load,
booking creation, booking cancellation).

The embedding is a direct translation of the Python source:
pure helper functions (`safe_text`, `safe_int`, `parse_date`) become Lean
functions; the SQLAlchemy-backed store becomes an explicit `Store` record
threaded through the three route handlers, with a committed store returned
on success and the unchanged committed store returned on every error path
(the session is never committed on those paths).  Machine integers are
modelled as `Int`/`Nat` (Python integers are unbounded, SQLite integers are
wide enough for every value reachable here).  Fallible code returns
`Option` or an explicit result inductive mirroring the HTTP responses.
-/

namespace BookingApp

/-- A parsed calendar date-time, as produced by Python's
`datetime.strptime`.  Only the fields the six accepted formats can set are
modelled; `strptime` defaults the time-of-day fields to 0 for the
date-only formats. -/
structure DateTime where
  year : Nat
  month : Nat
  day : Nat
  hour : Nat
  minute : Nat
  second : Nat
deriving DecidableEq

/-- Numeric value of an ASCII digit character. -/
def charVal (c : Char) : Nat := c.toNat - 48

/-- Candidates for a numeric field that CPython's `_strptime` compiles to a
regex of shape `⟨two-digit alternatives⟩|⟨one-digit alternative⟩`: the
two-digit branch (accepted when `twoOk` holds of its value) is preferred,
and on backtracking the one-digit branch (accepted when `oneOk` holds of
the character) is tried.  Returned in regex backtracking order. -/
def fieldCands (twoOk : Nat → Bool) (oneOk : Char → Bool) :
    List Char → List (Nat × List Char)
  | c1 :: c2 :: rest =>
      (if c1.isDigit && c2.isDigit && twoOk (charVal c1 * 10 + charVal c2)
        then [(charVal c1 * 10 + charVal c2, rest)] else [])
      ++ (if oneOk c1 then [(charVal c1, c2 :: rest)] else [])
  | [c1] => if oneOk c1 then [(charVal c1, ([] : List Char))] else []
  | [] => []

/-- `%d`: regex `3[01]|[12]\d|0[1-9]|[1-9]` — two digits 01..31, else one
digit 1..9. -/
def dCands : List Char → List (Nat × List Char) :=
  fieldCands (fun v => decide (1 ≤ v ∧ v ≤ 31)) (fun c => c.isDigit && c != '0')

/-- `%m`: regex `1[0-2]|0[1-9]|[1-9]` — two digits 01..12, else one digit
1..9. -/
def mCands : List Char → List (Nat × List Char) :=
  fieldCands (fun v => decide (1 ≤ v ∧ v ≤ 12)) (fun c => c.isDigit && c != '0')

/-- `%H`: regex `2[0-3]|[0-1]\d|\d` — two digits 00..23, else one digit. -/
def hCands : List Char → List (Nat × List Char) :=
  fieldCands (fun v => decide (v ≤ 23)) Char.isDigit

/-- `%M`: regex `[0-5]\d|\d` — two digits 00..59, else one digit. -/
def minCands : List Char → List (Nat × List Char) :=
  fieldCands (fun v => decide (v ≤ 59)) Char.isDigit

/-- `%S`: regex `6[0-1]|[0-5]\d|\d` — two digits 00..61 (leap seconds),
else one digit. -/
def secCands : List Char → List (Nat × List Char) :=
  fieldCands (fun v => decide (v ≤ 61)) Char.isDigit

/-- `%Y`: exactly four digits. -/
def y4 : List Char → List (Nat × List Char)
  | c1 :: c2 :: c3 :: c4 :: rest =>
      if c1.isDigit && c2.isDigit && c3.isDigit && c4.isDigit then
        [(((charVal c1 * 10 + charVal c2) * 10 + charVal c3) * 10 + charVal c4,
          rest)]
      else []
  | _ => []

/-- `%y`: exactly two digits; values 00..68 map to 2000..2068 and 69..99
to 1969..1999, as in CPython. -/
def y2 : List Char → List (Nat × List Char)
  | c1 :: c2 :: rest =>
      if c1.isDigit && c2.isDigit then
        [(if charVal c1 * 10 + charVal c2 ≤ 68
            then 2000 + (charVal c1 * 10 + charVal c2)
            else 1900 + (charVal c1 * 10 + charVal c2), rest)]
      else []
  | _ => []

/-- A literal character in the format string. -/
def expectChar (c : Char) : List Char → List (List Char)
  | x :: rest => if x = c then [rest] else []
  | [] => []

/-- Shape match for the formats `%d<sep>%m<sep>%Y` and `%d<sep>%m<sep>%y`
(the year matcher is a parameter); the whole input must be consumed, as
CPython rejects a match that is not the full string. -/
def shapeDMY (sep : Char) (yr : List Char → List (Nat × List Char))
    (cs : List Char) : List DateTime :=
  (dCands cs).flatMap fun dc =>
  (expectChar sep dc.2).flatMap fun cs1 =>
  (mCands cs1).flatMap fun mc =>
  (expectChar sep mc.2).flatMap fun cs2 =>
  (yr cs2).flatMap fun yc =>
  if yc.2 = [] then [⟨yc.1, mc.1, dc.1, 0, 0, 0⟩] else []

/-- Shape match for `%Y-%m-%d`. -/
def shapeYMD (cs : List Char) : List DateTime :=
  (y4 cs).flatMap fun yc =>
  (expectChar '-' yc.2).flatMap fun cs1 =>
  (mCands cs1).flatMap fun mc =>
  (expectChar '-' mc.2).flatMap fun cs2 =>
  (dCands cs2).flatMap fun dc =>
  if dc.2 = [] then [⟨yc.1, mc.1, dc.1, 0, 0, 0⟩] else []

/-- Shape match for `%Y-%m-%dT%H:%M:%S`. -/
def shapeIsoT (cs : List Char) : List DateTime :=
  (y4 cs).flatMap fun yc =>
  (expectChar '-' yc.2).flatMap fun cs1 =>
  (mCands cs1).flatMap fun mc =>
  (expectChar '-' mc.2).flatMap fun cs2 =>
  (dCands cs2).flatMap fun dc =>
  (expectChar 'T' dc.2).flatMap fun cs3 =>
  (hCands cs3).flatMap fun hc =>
  (expectChar ':' hc.2).flatMap fun cs4 =>
  (minCands cs4).flatMap fun mnc =>
  (expectChar ':' mnc.2).flatMap fun cs5 =>
  (secCands cs5).flatMap fun sc =>
  if sc.2 = [] then [⟨yc.1, mc.1, dc.1, hc.1, mnc.1, sc.1⟩] else []

/-- The six format strings tried by `parse_date`, in source order:
`%Y-%m-%dT%H:%M:%S`, `%d/%m/%Y`, `%d-%m-%Y`, `%Y-%m-%d`, `%d/%m/%y`,
`%d-%m-%y`. -/
inductive DateFmt
  | isoT
  | dmySlash
  | dmyDash
  | ymd
  | dmy2Slash
  | dmy2Dash
deriving DecidableEq

/-- Regex-shape matching of one format against the characters of the
input, in backtracking order; first element is the match the regex engine
returns. -/
def shapeMatch : DateFmt → List Char → List DateTime
  | .isoT => shapeIsoT
  | .dmySlash => shapeDMY '/' y4
  | .dmyDash => shapeDMY '-' y4
  | .ymd => shapeYMD
  | .dmy2Slash => shapeDMY '/' y2
  | .dmy2Dash => shapeDMY '-' y2

/-- Gregorian leap year rule used by `datetime`. -/
def isLeap (y : Nat) : Bool := (y % 4 == 0 && y % 100 != 0) || y % 400 == 0

/-- Days in a month, as validated by the `datetime` constructor. -/
def daysInMonth (y m : Nat) : Nat :=
  if m = 2 then (if isLeap y then 29 else 28)
  else if m = 4 ∨ m = 6 ∨ m = 9 ∨ m = 11 then 30 else 31

/-- Range validation performed by the `datetime.datetime` constructor
(`MINYEAR = 1`, `MAXYEAR = 9999`, calendar-valid day, time fields in
range).  A regex-shape match with an out-of-calendar day (e.g. Feb 31)
fails here and only here. -/
def datetime_ok (d : DateTime) : Bool :=
  decide (1 ≤ d.year ∧ d.year ≤ 9999 ∧ 1 ≤ d.month ∧ d.month ≤ 12 ∧
    1 ≤ d.day ∧ d.day ≤ daysInMonth d.year d.month ∧
    d.hour ≤ 23 ∧ d.minute ≤ 59 ∧ d.second ≤ 59)

/-- `datetime.strptime(s, fmt)` for the six formats: take the (unique,
first) full regex match of the format shape, then validate it through the
`datetime` constructor; `none` models the `ValueError` raised on either a
failed match or an invalid calendar date. -/
def strptime (fmt : DateFmt) (s : String) : Option DateTime :=
  match (shapeMatch fmt s.data).head? with
  | none => none
  | some d => if datetime_ok d then some d else none

/-- Python's `str.strip()` on the character lists of the embedding. -/
def pyStrip (s : String) : String :=
  String.mk
    (((s.data.dropWhile Char.isWhitespace).reverse.dropWhile
      Char.isWhitespace).reverse)

/-- Python's `str(...)` applied to a `row.get(...)` result: a missing CSV
column is `None` and stringifies to `"None"`. -/
def pyStr (v : Option String) : String :=
  match v with
  | none => "None"
  | some s => s

/-- The list of formats `parse_date` tries, in source order. -/
def formats : List DateFmt :=
  [.isoT, .dmySlash, .dmyDash, .ymd, .dmy2Slash, .dmy2Dash]

/-- `parse_date` from the source: stringify and strip the input once, then
try the six formats in order, returning the first success; `none` models
the `ValueError` raised after the loop when no format matches. -/
def parse_date (date_str : Option String) : Option DateTime :=
  formats.findSome? fun fmt => strptime fmt (pyStrip (pyStr date_str))

/-- `safe_text` from the source: falsy input (missing column or empty
string) yields the default `""`; otherwise the string is stripped. -/
def safe_text (value : Option String) : String :=
  match value with
  | none => ""
  | some s => if s = "" then "" else pyStrip s

/-- Digit run of a Python integer literal after the first digit:
underscores are allowed singly between digits. -/
def pyDigitsAux : Nat → List Char → Option Nat
  | acc, [] => some acc
  | acc, '_' :: c :: rest =>
      if c.isDigit then pyDigitsAux (acc * 10 + charVal c) rest else none
  | acc, c :: rest =>
      if c.isDigit then pyDigitsAux (acc * 10 + charVal c) rest else none

/-- Digit run of a Python integer literal: at least one leading digit. -/
def pyDigitsStart : List Char → Option Nat
  | c :: rest => if c.isDigit then pyDigitsAux (charVal c) rest else none
  | [] => none

/-- Python's `int(...)` on an already-stripped string: an optional sign
followed by a digit run (underscores allowed between digits); `none`
models the `ValueError` raised on anything else. -/
def pythonInt (s : String) : Option Int :=
  match s.data with
  | '+' :: rest => (pyDigitsStart rest).map Int.ofNat
  | '-' :: rest => (pyDigitsStart rest).map (fun n => -(n : Int))
  | l => (pyDigitsStart l).map Int.ofNat

/-- `safe_int` from the source: falsy input (missing column, empty string,
or whitespace-only string) yields the default `0`; otherwise the stripped
string is passed to `int(...)`, with a `ValueError` caught and turned into
the default `0`. -/
def safe_int (value : Option String) : Int :=
  match value with
  | none => 0
  | some s =>
      if s = "" then 0
      else if pyStrip s = "" then 0
      else match pythonInt (pyStrip s) with
        | some n => n
        | none => 0

/-- A row of the `member` table.  The primary key is assigned by the
store; `booking_count` is a Python/SQLite integer. -/
structure Member where
  id : Nat
  name : String
  surname : String
  booking_count : Int
  date_joined : DateTime
deriving DecidableEq

/-- A row of the `inventory` table. -/
structure Inventory where
  id : Nat
  title : String
  description : String
  remaining_count : Int
  expiration_date : DateTime
deriving DecidableEq

/-- A row of the `booking` table.  The wall-clock `booking_datetime`
column (defaulted to `utcnow`) carries no information the handlers ever
read, so it is not part of the embedding. -/
structure Booking where
  id : Nat
  member_id : Nat
  inventory_id : Nat
deriving DecidableEq

/-- The committed database state: the three tables plus the autoincrement
counters SQLite keeps for their integer primary keys. -/
structure Store where
  members : List Member
  inventory : List Inventory
  bookings : List Booking
  next_member_id : Nat
  next_inventory_id : Nat
  next_booking_id : Nat
deriving DecidableEq

/-- The freshly created database (`db.create_all` on an empty file);
SQLite assigns primary keys starting from 1. -/
def emptyStore : Store := ⟨[], [], [], 1, 1, 1⟩

/-- `Member.query.get(member_id)`: primary-key lookup. -/
def Store.findMember (s : Store) (member_id : Nat) : Option Member :=
  s.members.find? fun m => m.id == member_id

/-- `Inventory.query.get(inventory_id)`: primary-key lookup. -/
def Store.findItem (s : Store) (inventory_id : Nat) : Option Inventory :=
  s.inventory.find? fun i => i.id == inventory_id

/-- `Booking.query.get(booking_id)`: primary-key lookup. -/
def Store.findBooking (s : Store) (booking_id : Nat) : Option Booking :=
  s.bookings.find? fun b => b.id == booking_id

/-- One CSV row of `member.csv` as produced by `csv.DictReader`:
`row.get(column)` is `None` exactly when the column is absent. -/
structure MemberRow where
  name : Option String
  surname : Option String
  booking_count : Option String
  date_joined : Option String
deriving DecidableEq

/-- One CSV row of `inventory.csv`. -/
structure InventoryRow where
  title : Option String
  description : Option String
  remaining_count : Option String
  expiration_date : Option String
deriving DecidableEq

/-- A member record built from a CSV row, before the store assigns its
primary key. -/
structure PendingMember where
  name : String
  surname : String
  booking_count : Int
  date_joined : DateTime
deriving DecidableEq

/-- An inventory record built from a CSV row, before the store assigns
its primary key. -/
structure PendingInventory where
  title : String
  description : String
  remaining_count : Int
  expiration_date : DateTime
deriving DecidableEq

/-- The body of the per-row `try` block in the members pass:
`Member(name=safe_text(...), surname=safe_text(...),
booking_count=safe_int(...), date_joined=parse_date(...))`.  Only
`parse_date` can raise, so the row is dropped exactly when its
`date_joined` fails to parse. -/
def parseMemberRow (row : MemberRow) : Option PendingMember :=
  match parse_date row.date_joined with
  | none => none
  | some d =>
      some ⟨safe_text row.name, safe_text row.surname,
        safe_int row.booking_count, d⟩

/-- The body of the per-row `try` block in the inventory pass. -/
def parseInventoryRow (row : InventoryRow) : Option PendingInventory :=
  match parse_date row.expiration_date with
  | none => none
  | some d =>
      some ⟨safe_text row.title, safe_text row.description,
        safe_int row.remaining_count, d⟩

/-- The members pass: each row is parsed inside its own `try`; a failing
row is logged and skipped (`continue`) and iteration proceeds with the
next row. -/
def importMemberRows (rows : List MemberRow) : List PendingMember :=
  rows.filterMap parseMemberRow

/-- The inventory pass. -/
def importInventoryRows (rows : List InventoryRow) : List PendingInventory :=
  rows.filterMap parseInventoryRow

/-- Primary-key assignment performed by the autoincrement column when the
session is flushed at commit: consecutive ids starting from the current
counter. -/
def commitMembers : Nat → List PendingMember → List Member
  | _, [] => []
  | nid, p :: rest =>
      ⟨nid, p.name, p.surname, p.booking_count, p.date_joined⟩ ::
        commitMembers (nid + 1) rest

/-- Primary-key assignment for the imported inventory records. -/
def commitInventory : Nat → List PendingInventory → List Inventory
  | _, [] => []
  | nid, p :: rest =>
      ⟨nid, p.title, p.description, p.remaining_count, p.expiration_date⟩ ::
        commitInventory (nid + 1) rest

/-- Outcome of the `/import` route, mirroring its three possible JSON
responses (the generic `Import failed` path is unreachable in the
embedding because every row-level failure is already caught inside the
loops). -/
inductive ImportResult
  | memberCsvNotFound
  | inventoryCsvNotFound
  | success
deriving DecidableEq

/-- The `/import` route.  A source file is `none` when opening it raises
`FileNotFoundError`; in that case the handler returns a 404 before
`db.session.commit()` runs, so the committed store is unchanged (rows
already added to the session in the members pass are never committed).
On success a single `db.session.commit()` persists both passes at once. -/
def import_data (memberCsv : Option (List MemberRow))
    (inventoryCsv : Option (List InventoryRow)) (s : Store) :
    ImportResult × Store :=
  match memberCsv with
  | none => (.memberCsvNotFound, s)
  | some mrows =>
      match inventoryCsv with
      | none => (.inventoryCsvNotFound, s)
      | some irows =>
          let pm := importMemberRows mrows
          let pv := importInventoryRows irows
          (.success,
           { s with
             members := s.members ++ commitMembers s.next_member_id pm,
             inventory :=
               s.inventory ++ commitInventory s.next_inventory_id pv,
             next_member_id := s.next_member_id + pm.length,
             next_inventory_id := s.next_inventory_id + pv.length })

/-- Outcome of the `/book` route, mirroring its four JSON responses. -/
inductive BookResult
  | notFound
  | maxBookings
  | itemUnavailable
  | success (booking_id : Nat)
deriving DecidableEq

/-- `MAX_BOOKINGS = 2` from the source. -/
def MAX_BOOKINGS : Int := 2

/-- The `/book` route: look up member and item by primary key; `404` if
either is missing; reject the member at `booking_count >= MAX_BOOKINGS`;
reject the item at `remaining_count <= 0`; otherwise insert a booking
(whose primary key is the autoincrement counter), increment the member's
`booking_count`, decrement the item's `remaining_count`, and commit the
three effects together.  Every rejection happens before any mutation. -/
def book_item (s : Store) (member_id inventory_id : Nat) :
    BookResult × Store :=
  match s.findMember member_id, s.findItem inventory_id with
  | some member, some item =>
      if MAX_BOOKINGS ≤ member.booking_count then (.maxBookings, s)
      else if item.remaining_count ≤ 0 then (.itemUnavailable, s)
      else
        (.success s.next_booking_id,
         { s with
           members := s.members.map fun m =>
             if m.id == member.id then
               { m with booking_count := m.booking_count + 1 } else m,
           inventory := s.inventory.map fun i =>
             if i.id == item.id then
               { i with remaining_count := i.remaining_count - 1 } else i,
           bookings :=
             s.bookings ++ [⟨s.next_booking_id, member.id, item.id⟩],
           next_booking_id := s.next_booking_id + 1 })
  | _, _ => (.notFound, s)

/-- Outcome of the `/cancel/<booking_id>` route. -/
inductive CancelResult
  | notFound
  | success
deriving DecidableEq

/-- The `/cancel/<booking_id>` route: look up the booking by primary key;
`404` if missing; otherwise decrement the linked member's
`booking_count`, increment the linked item's `remaining_count` (no bound
is checked on either), delete the booking row, and commit the three
effects together. -/
def cancel_booking (s : Store) (booking_id : Nat) : CancelResult × Store :=
  match s.findBooking booking_id with
  | none => (.notFound, s)
  | some booking =>
      (.success,
       { s with
         members := s.members.map fun m =>
           if m.id == booking.member_id then
             { m with booking_count := m.booking_count - 1 } else m,
         inventory := s.inventory.map fun i =>
           if i.id == booking.inventory_id then
             { i with remaining_count := i.remaining_count + 1 } else i,
         bookings := s.bookings.filter fun b => b.id != booking.id })

/-- Number of booking rows referencing a given member id. -/
def bookingsForMember (s : Store) (member_id : Nat) : Nat :=
  (s.bookings.filter fun b => b.member_id == member_id).length

/-- Number of booking rows referencing a given inventory id. -/
def bookingsForItem (s : Store) (inventory_id : Nat) : Nat :=
  (s.bookings.filter fun b => b.inventory_id == inventory_id).length

/-- The counting invariant of the specification: every member's
`booking_count` equals the number of booking rows referencing it and does
not exceed `MAX_BOOKINGS`, and every item's `remaining_count` is
non-negative and accounts for the bookings against it (one unit held per
booking row, so count + bookings is the item's constant total stock; here
we state the part refutable/provable without a stored total: equality for
members, non-negativity for items). -/
def CountInv (s : Store) : Prop :=
  (∀ m ∈ s.members,
      m.booking_count = (bookingsForMember s m.id : Int) ∧
      m.booking_count ≤ MAX_BOOKINGS) ∧
  (∀ i ∈ s.inventory, 0 ≤ i.remaining_count)

/-- Database well-formedness guaranteed by SQLite primary keys and the
autoincrement counter: distinct primary keys in each table, and every
existing booking id below the autoincrement counter. -/
def StoreWf (s : Store) : Prop :=
  (s.members.map fun m => m.id).Nodup ∧
  (s.inventory.map fun i => i.id).Nodup ∧
  (s.bookings.map fun b => b.id).Nodup ∧
  (∀ b ∈ s.bookings, b.id < s.next_booking_id)

instance (s : Store) : Decidable (CountInv s) := by
  unfold CountInv; infer_instance

instance (s : Store) : Decidable (StoreWf s) := by
  unfold StoreWf; infer_instance

/-- States reachable from the fresh database through the three public
routes. -/
inductive Reachable : Store → Prop
  | init : Reachable emptyStore
  | step_import (memberCsv : Option (List MemberRow))
      (inventoryCsv : Option (List InventoryRow)) (s : Store) :
      Reachable s → Reachable (import_data memberCsv inventoryCsv s).2
  | step_book (member_id inventory_id : Nat) (s : Store) :
      Reachable s → Reachable (book_item s member_id inventory_id).2
  | step_cancel (booking_id : Nat) (s : Store) :
      Reachable s → Reachable (cancel_booking s booking_id).2

/-- The given store with the expiration date of the item with the given
primary key replaced; used to state that `book_item` is insensitive to
expiration dates. -/
def set_item_expiration (s : Store) (inventory_id : Nat) (d : DateTime) :
    Store :=
  { s with
    inventory := s.inventory.map fun i =>
      if i.id == inventory_id then { i with expiration_date := d } else i }

/-- A small concrete store used to instantiate the theorems: one member
with one active booking of the single inventory item. -/
def sampleStore : Store :=
  { members := [⟨1, "Ann", "Lee", 1, ⟨2024, 1, 5, 10, 0, 0⟩⟩],
    inventory := [⟨1, "Chair", "Oak", 2, ⟨2025, 12, 31, 0, 0, 0⟩⟩],
    bookings := [⟨1, 1, 1⟩],
    next_member_id := 2,
    next_inventory_id := 2,
    next_booking_id := 2 }

/-- A store whose single member already holds the maximum number of
bookings. -/
def cappedStore : Store :=
  { members := [⟨1, "Ann", "Lee", 2, ⟨2024, 1, 5, 10, 0, 0⟩⟩],
    inventory := [⟨1, "Chair", "Oak", 1, ⟨2025, 12, 31, 0, 0, 0⟩⟩],
    bookings := [⟨1, 1, 1⟩, ⟨2, 1, 1⟩],
    next_member_id := 2,
    next_inventory_id := 2,
    next_booking_id := 3 }

/-- A store whose single item has no remaining units. -/
def soldOutStore : Store :=
  { members := [⟨1, "Ann", "Lee", 0, ⟨2024, 1, 5, 10, 0, 0⟩⟩],
    inventory := [⟨1, "Chair", "Oak", 0, ⟨2025, 12, 31, 0, 0, 0⟩⟩],
    bookings := [],
    next_member_id := 2,
    next_inventory_id := 2,
    next_booking_id := 1 }

/-- A store in an inconsistent state (a booking row exists although the
member's `booking_count` is already 0), reachable after e.g. an import of
counters that disagree with the booking rows. -/
def inconsistentStore : Store :=
  { members := [⟨1, "Ann", "Lee", 0, ⟨2024, 1, 5, 10, 0, 0⟩⟩],
    inventory := [⟨1, "Chair", "Oak", 2, ⟨2025, 12, 31, 0, 0, 0⟩⟩],
    bookings := [⟨1, 1, 1⟩],
    next_member_id := 2,
    next_inventory_id := 2,
    next_booking_id := 2 }

/-- A store with a fresh member (no bookings) and two units of stock. -/
def freshStore : Store :=
  { members := [⟨1, "Ann", "Lee", 0, ⟨2024, 1, 5, 10, 0, 0⟩⟩],
    inventory := [⟨1, "Chair", "Oak", 2, ⟨2025, 12, 31, 0, 0, 0⟩⟩],
    bookings := [],
    next_member_id := 2,
    next_inventory_id := 2,
    next_booking_id := 1 }

/-! ### Helper lemmas -/

theorem find?_map_comm {α : Type} (f : α → α) (p : α → Bool)
    (hf : ∀ a, p (f a) = p a) (l : List α) :
    (l.map f).find? p = (l.find? p).map f := by
  induction l with
  | nil => rfl
  | cons a l ih =>
      simp only [List.map_cons, List.find?_cons, hf]
      cases h : p a <;> simp [ih]

theorem map_map_id_of_update {α : Type} (l : List α) (f : α → α)
    (idf : α → Nat) (hf : ∀ a, idf (f a) = idf a) :
    (l.map f).map idf = l.map idf := by
  rw [List.map_map]
  exact List.map_congr_left fun a _ => hf a

/-- Deleting the row found for a key from a table with distinct primary
keys removes exactly one row matching any predicate `q` satisfied by that
row (stated additively to stay in `Nat`). -/
theorem filter_erase_count (bid : Nat) (bk : Booking) (q : Booking → Bool)
    (l : List Booking) (hfind : l.find? (fun b => b.id == bid) = some bk)
    (hnd : (l.map fun b => b.id).Nodup) :
    ((l.filter fun b => b.id != bk.id).filter q).length +
        (if q bk then 1 else 0) =
      (l.filter q).length := by
  induction l with
  | nil => simp at hfind
  | cons a t ih =>
      simp only [List.map_cons, List.nodup_cons] at hnd
      cases hab : (a.id == bid) with
      | true =>
          simp only [List.find?_cons, hab, Option.some.injEq] at hfind
          subst hfind
          have ht : t.filter (fun b => b.id != a.id) = t := by
            rw [List.filter_eq_self]
            intro b hb
            simp only [bne_iff_ne, ne_eq]
            intro hcontra
            exact hnd.1 (hcontra ▸ List.mem_map_of_mem (fun b => b.id) hb)
          simp only [List.filter_cons, bne_self_eq_false, Bool.false_eq_true,
            if_false, ht]
          cases hq : q a <;> simp
      | false =>
          simp only [List.find?_cons, hab] at hfind
          have hbk : (bk.id == bid) = true := by
            simpa using List.find?_some hfind
          have hne : a.id != bk.id := by
            simp only [bne_iff_ne, ne_eq]
            intro hcontra
            rw [hcontra, hbk] at hab
            exact Bool.true_eq_false.mp hab
          simp only [List.filter_cons, hne, if_true]
          cases hq : q a with
          | true =>
              simp only [List.filter_cons, hq, if_true, List.length_cons]
              have := ih hfind hnd.2
              omega
          | false =>
              simp only [List.filter_cons, hq, Bool.false_eq_true, if_false]
              exact ih hfind hnd.2

/-- Unfolding of `book_item` when all checks pass. -/
theorem book_item_success (s : Store) (member_id inventory_id : Nat)
    (member : Member) (item : Inventory)
    (hm : s.findMember member_id = some member)
    (hi : s.findItem inventory_id = some item)
    (hcap : member.booking_count < MAX_BOOKINGS)
    (havail : 0 < item.remaining_count) :
    book_item s member_id inventory_id =
      (.success s.next_booking_id,
       { s with
         members := s.members.map fun m =>
           if m.id == member.id then
             { m with booking_count := m.booking_count + 1 } else m,
         inventory := s.inventory.map fun i =>
           if i.id == item.id then
             { i with remaining_count := i.remaining_count - 1 } else i,
         bookings :=
           s.bookings ++ [⟨s.next_booking_id, member.id, item.id⟩],
         next_booking_id := s.next_booking_id + 1 }) := by
  simp only [book_item, hm, hi]
  rw [if_neg (not_le.mpr hcap), if_neg (not_le.mpr havail)]

/-- Unfolding of `cancel_booking` when the booking exists. -/
theorem cancel_booking_found (s : Store) (booking_id : Nat) (bk : Booking)
    (hb : s.findBooking booking_id = some bk) :
    cancel_booking s booking_id =
      (.success,
       { s with
         members := s.members.map fun m =>
           if m.id == bk.member_id then
             { m with booking_count := m.booking_count - 1 } else m,
         inventory := s.inventory.map fun i =>
           if i.id == bk.inventory_id then
             { i with remaining_count := i.remaining_count + 1 } else i,
         bookings := s.bookings.filter fun b => b.id != bk.id }) := by
  simp only [cancel_booking, hb]

/-- `book_item` preserves primary-key well-formedness. -/
theorem storeWf_book (s : Store) (mid iid : Nat) (hwf : StoreWf s) :
    StoreWf (book_item s mid iid).2 := by
  cases hm : s.findMember mid with
  | none => simpa [book_item, hm] using hwf
  | some member =>
  cases hi : s.findItem iid with
  | none => simpa [book_item, hm, hi] using hwf
  | some item =>
  by_cases hcap : MAX_BOOKINGS ≤ member.booking_count
  · simpa [book_item, hm, hi, hcap] using hwf
  by_cases havail : item.remaining_count ≤ 0
  · simpa [book_item, hm, hi, hcap, havail] using hwf
  rw [book_item_success s mid iid member item hm hi (not_le.mp hcap)
    (not_le.mp havail)]
  obtain ⟨hmn, hin, hbn, hbf⟩ := hwf
  have hmids : ((s.members.map fun m =>
      if m.id == member.id then
        { m with booking_count := m.booking_count + 1 } else m).map
        fun m => m.id) = s.members.map fun m => m.id :=
    map_map_id_of_update _ _ _ fun a => by
      by_cases h : a.id = member.id <;> simp [h]
  have hiids : ((s.inventory.map fun i =>
      if i.id == item.id then
        { i with remaining_count := i.remaining_count - 1 } else i).map
        fun i => i.id) = s.inventory.map fun i => i.id :=
    map_map_id_of_update _ _ _ fun a => by
      by_cases h : a.id = item.id <;> simp [h]
  refine ⟨?_, ?_, ?_, ?_⟩
  · rw [hmids]; exact hmn
  · rw [hiids]; exact hin
  · rw [List.map_append, List.nodup_append]
    refine ⟨hbn, List.nodup_singleton _, ?_⟩
    intro a ha hb
    simp only [List.map_cons, List.map_nil, List.mem_singleton] at hb
    subst hb
    obtain ⟨b, hbmem, hbid⟩ := List.mem_map.mp ha
    exact absurd hbid (Nat.ne_of_lt (hbf b hbmem))
  · intro b hb
    rcases List.mem_append.mp hb with h | h
    · exact Nat.lt_succ_of_lt (hbf b h)
    · simp only [List.mem_singleton] at h
      subst h
      exact Nat.lt_succ_self _

/-- `book_item` preserves the counting invariant. -/
theorem countInv_book (s : Store) (mid iid : Nat) (hwf : StoreWf s)
    (hinv : CountInv s) : CountInv (book_item s mid iid).2 := by
  cases hm : s.findMember mid with
  | none => simpa [book_item, hm] using hinv
  | some member =>
  cases hi : s.findItem iid with
  | none => simpa [book_item, hm, hi] using hinv
  | some item =>
  by_cases hcap : MAX_BOOKINGS ≤ member.booking_count
  · simpa [book_item, hm, hi, hcap] using hinv
  by_cases havail : item.remaining_count ≤ 0
  · simpa [book_item, hm, hi, hcap, havail] using hinv
  rw [book_item_success s mid iid member item hm hi (not_le.mp hcap)
    (not_le.mp havail)]
  have hmemmem : member ∈ s.members := List.mem_of_find?_eq_some hm
  have hitemmem : item ∈ s.inventory := List.mem_of_find?_eq_some hi
  obtain ⟨hinvm, hinvi⟩ := hinv
  constructor
  · intro m' hm'
    obtain ⟨m, hmem, rfl⟩ := List.mem_map.mp hm'
    obtain ⟨hcnt, hcap2⟩ := hinvm m hmem
    by_cases hid : m.id = member.id
    · have hmeq : m = member := List.inj_on_of_nodup_map hwf.1 hmem hmemmem hid
      subst hmeq
      simp only [beq_self_eq_true, if_true, bookingsForMember,
        List.filter_append]
      simp only [List.filter_cons, List.filter_nil, beq_self_eq_true,
        if_true, List.length_append, List.length_cons, List.length_nil]
      constructor
      · push_cast
        rw [← bookingsForMember]
        omega
      · have hlt := not_le.mp hcap
        simp only [MAX_BOOKINGS] at hlt ⊢
        omega
    · have hfalse : (m.id == member.id) = false := beq_eq_false_iff_ne.mpr hid
      simp only [hfalse, Bool.false_eq_true, if_false, bookingsForMember,
        List.filter_append]
      have hnotb : (member.id == m.id) = false :=
        beq_eq_false_iff_ne.mpr (Ne.symm hid)
      simp only [List.filter_cons, hnotb, Bool.false_eq_true, if_false,
        List.filter_nil, List.append_nil]
      exact ⟨hcnt, hcap2⟩
  · intro i' hi'
    obtain ⟨i, hmem, rfl⟩ := List.mem_map.mp hi'
    have h0 := hinvi i hmem
    by_cases hid : i.id = item.id
    · have hieq : i = item := List.inj_on_of_nodup_map hwf.2.1 hmem hitemmem hid
      subst hieq
      simp only [beq_self_eq_true, if_true]
      have hpos := not_le.mp havail
      omega
    · have hfalse : (i.id == item.id) = false := beq_eq_false_iff_ne.mpr hid
      simp only [hfalse, Bool.false_eq_true, if_false]
      exact h0

/-- `cancel_booking` preserves primary-key well-formedness. -/
theorem storeWf_cancel (s : Store) (bid : Nat) (hwf : StoreWf s) :
    StoreWf (cancel_booking s bid).2 := by
  cases hb : s.findBooking bid with
  | none => simpa [cancel_booking, hb] using hwf
  | some bk =>
  rw [cancel_booking_found s bid bk hb]
  obtain ⟨hmn, hin, hbn, hbf⟩ := hwf
  have hmids : ((s.members.map fun m =>
      if m.id == bk.member_id then
        { m with booking_count := m.booking_count - 1 } else m).map
        fun m => m.id) = s.members.map fun m => m.id :=
    map_map_id_of_update _ _ _ fun a => by
      by_cases h : a.id = bk.member_id <;> simp [h]
  have hiids : ((s.inventory.map fun i =>
      if i.id == bk.inventory_id then
        { i with remaining_count := i.remaining_count + 1 } else i).map
        fun i => i.id) = s.inventory.map fun i => i.id :=
    map_map_id_of_update _ _ _ fun a => by
      by_cases h : a.id = bk.inventory_id <;> simp [h]
  refine ⟨?_, ?_, ?_, ?_⟩
  · rw [hmids]; exact hmn
  · rw [hiids]; exact hin
  · exact List.Nodup.sublist
      ((List.filter_sublist s.bookings).map fun b => b.id) hbn
  · intro b hbmem
    exact hbf b (List.mem_of_mem_filter hbmem)

/-- `cancel_booking` preserves the counting invariant. -/
theorem countInv_cancel (s : Store) (bid : Nat) (hwf : StoreWf s)
    (hinv : CountInv s) : CountInv (cancel_booking s bid).2 := by
  cases hb : s.findBooking bid with
  | none => simpa [cancel_booking, hb] using hinv
  | some bk =>
  rw [cancel_booking_found s bid bk hb]
  obtain ⟨hinvm, hinvi⟩ := hinv
  constructor
  · intro m' hm'
    obtain ⟨m, hmem, rfl⟩ := List.mem_map.mp hm'
    obtain ⟨hcnt, hcap2⟩ := hinvm m hmem
    have hcount := filter_erase_count bid bk
      (fun b => b.member_id == m.id) s.bookings hb hwf.2.2.1
    by_cases hid : m.id = bk.member_id
    · have htrue : (m.id == bk.member_id) = true := beq_iff_eq.mpr hid
      have hqtrue : (bk.member_id == m.id) = true :=
        beq_iff_eq.mpr hid.symm
      simp only [htrue, if_true, bookingsForMember]
      simp only [hqtrue, if_true] at hcount
      simp only [bookingsForMember] at hcnt
      constructor
      · omega
      · simp only [MAX_BOOKINGS] at hcap2 ⊢
        omega
    · have hfalse : (m.id == bk.member_id) = false := beq_eq_false_iff_ne.mpr hid
      have hqfalse : (bk.member_id == m.id) = false :=
        beq_eq_false_iff_ne.mpr (Ne.symm hid)
      simp only [hfalse, Bool.false_eq_true, if_false, bookingsForMember]
      simp only [hqfalse, Bool.false_eq_true, if_false] at hcount
      simp only [bookingsForMember] at hcnt
      exact ⟨by omega, hcap2⟩
  · intro i' hi'
    obtain ⟨i, hmem, rfl⟩ := List.mem_map.mp hi'
    have h0 := hinvi i hmem
    by_cases hid : i.id = bk.inventory_id
    · have htrue : (i.id == bk.inventory_id) = true := beq_iff_eq.mpr hid
      simp only [htrue, if_true]
      omega
    · have hfalse : (i.id == bk.inventory_id) = false :=
        beq_eq_false_iff_ne.mpr hid
      simp only [hfalse, Bool.false_eq_true, if_false]
      exact h0

/-- Claim C1, refuted as stated: not every state reachable by the public
operations satisfies the counting invariant.  The state reached from the
fresh database by one import whose members source carries
`booking_count = "5"` (and an empty inventory source) contains a member
whose `booking_count` is 5 while zero booking rows reference it, and
5 exceeds the maximum of 2. -/
theorem C1_counterexample : ¬ ∀ s : Store, Reachable s → CountInv s := by
  intro h
  exact absurd
    (h _ (Reachable.step_import
      (some [⟨some "Ann", some "Lee", some "5", some "01/01/2024"⟩])
      (some []) emptyStore Reachable.init))
    (by decide)

/-- Claim C1 (amended): the booking operations `book_item` and
`cancel_booking` preserve the counting invariant — every member's
`booking_count` equals the number of booking rows referencing it and
stays at most 2, and every item's `remaining_count` stays non-negative —
given the primary-key well-formedness the database guarantees (which they
also preserve).  The import operation, by contrast, copies
`booking_count`/`remaining_count` verbatim from the source rows while
creating no bookings, so it does not establish the invariant (see the
counterexample). -/
theorem C1_invariant_preserved (s : Store) (mid iid bid : Nat)
    (hwf : StoreWf s) (hinv : CountInv s) :
    (StoreWf (book_item s mid iid).2 ∧ CountInv (book_item s mid iid).2) ∧
    (StoreWf (cancel_booking s bid).2 ∧
      CountInv (cancel_booking s bid).2) :=
  ⟨⟨storeWf_book s mid iid hwf, countInv_book s mid iid hwf hinv⟩,
   ⟨storeWf_cancel s bid hwf, countInv_cancel s bid hwf hinv⟩⟩

/-- Witness for C1 (amended) on the concrete `sampleStore`, where both a
booking creation and a cancellation actually fire. -/
theorem C1_invariant_preserved_witness :
    StoreWf sampleStore ∧ CountInv sampleStore ∧
    ((StoreWf (book_item sampleStore 1 1).2 ∧
        CountInv (book_item sampleStore 1 1).2) ∧
     (StoreWf (cancel_booking sampleStore 1).2 ∧
        CountInv (cancel_booking sampleStore 1).2)) :=
  ⟨by decide, by decide,
   C1_invariant_preserved sampleStore 1 1 1 (by decide) (by decide)⟩

/-- Combined effects of a successful `book_item`, phrased through the
lookup functions. -/
theorem book_effects (s : Store) (mid iid : Nat) (member : Member)
    (item : Inventory) (hm : s.findMember mid = some member)
    (hi : s.findItem iid = some item)
    (hcap : member.booking_count < MAX_BOOKINGS)
    (havail : 0 < item.remaining_count) :
    (book_item s mid iid).1 = .success s.next_booking_id ∧
    (book_item s mid iid).2.bookings =
      s.bookings ++ [⟨s.next_booking_id, member.id, item.id⟩] ∧
    (book_item s mid iid).2.findMember mid =
      some { member with booking_count := member.booking_count + 1 } ∧
    (book_item s mid iid).2.findItem iid =
      some { item with remaining_count := item.remaining_count - 1 } ∧
    (book_item s mid iid).2.next_booking_id = s.next_booking_id + 1 := by
  rw [book_item_success s mid iid member item hm hi hcap havail]
  refine ⟨rfl, rfl, ?_, ?_, rfl⟩
  · simp only [Store.findMember] at hm ⊢
    rw [find?_map_comm _ _
      (fun a => by by_cases h : a.id = member.id <;> simp [h]) s.members]
    rw [hm]
    simp
  · simp only [Store.findItem] at hi ⊢
    rw [find?_map_comm _ _
      (fun a => by by_cases h : a.id = item.id <;> simp [h]) s.inventory]
    rw [hi]
    simp

/-- Claim C2: `book_item` validates in order — existence of both member
and item first (otherwise `notFound`), then the member's capacity
(`booking_count >= 2` gives `maxBookings`, checked before the item), then
the item's availability (`remaining_count <= 0` gives `itemUnavailable`)
— and in every failure case the returned store is the unchanged input
store. -/
theorem C2_create_checks (s : Store) (mid iid : Nat) :
    (s.findMember mid = none ∨ s.findItem iid = none →
      book_item s mid iid = (.notFound, s)) ∧
    (∀ member item, s.findMember mid = some member →
      s.findItem iid = some item →
      (MAX_BOOKINGS ≤ member.booking_count →
        book_item s mid iid = (.maxBookings, s)) ∧
      (member.booking_count < MAX_BOOKINGS → item.remaining_count ≤ 0 →
        book_item s mid iid = (.itemUnavailable, s))) := by
  constructor
  · intro h
    rcases h with h | h
    · cases hi : s.findItem iid <;> simp [book_item, h, hi]
    · cases hm : s.findMember mid <;> simp [book_item, h, hm]
  · intro member item hm hi
    constructor
    · intro hcap
      simp [book_item, hm, hi, hcap]
    · intro hcap havail
      simp [book_item, hm, hi, not_le.mpr hcap, havail]

/-- Witness for C2 on concrete stores: both-missing, member-at-capacity,
and item-sold-out each return the documented error and leave the store
unchanged. -/
theorem C2_create_checks_witness :
    book_item emptyStore 1 1 = (.notFound, emptyStore) ∧
    book_item cappedStore 1 1 = (.maxBookings, cappedStore) ∧
    book_item soldOutStore 1 1 = (.itemUnavailable, soldOutStore) :=
  ⟨(C2_create_checks emptyStore 1 1).1 (Or.inl (by decide)),
   ((C2_create_checks cappedStore 1 1).2
      ⟨1, "Ann", "Lee", 2, ⟨2024, 1, 5, 10, 0, 0⟩⟩
      ⟨1, "Chair", "Oak", 1, ⟨2025, 12, 31, 0, 0, 0⟩⟩
      (by decide) (by decide)).1 (by decide),
   ((C2_create_checks soldOutStore 1 1).2
      ⟨1, "Ann", "Lee", 0, ⟨2024, 1, 5, 10, 0, 0⟩⟩
      ⟨1, "Chair", "Oak", 0, ⟨2025, 12, 31, 0, 0, 0⟩⟩
      (by decide) (by decide)).2 (by decide) (by decide)⟩

/-- Claim C3: when member and item exist, the member is under the
booking cap and the item has stock, `book_item` returns the new booking's
identity (the autoincrement key), appends exactly one booking row linking
that member and item, increments that member's `booking_count` by one and
decrements that item's `remaining_count` by one — all on the single
returned (committed) store, so the three effects happen together. -/
theorem C3_create_success (s : Store) (mid iid : Nat) (member : Member)
    (item : Inventory) (hm : s.findMember mid = some member)
    (hi : s.findItem iid = some item)
    (hcap : member.booking_count < MAX_BOOKINGS)
    (havail : 0 < item.remaining_count) :
    (book_item s mid iid).1 = .success s.next_booking_id ∧
    (book_item s mid iid).2.bookings =
      s.bookings ++ [⟨s.next_booking_id, member.id, item.id⟩] ∧
    (book_item s mid iid).2.findMember mid =
      some { member with booking_count := member.booking_count + 1 } ∧
    (book_item s mid iid).2.findItem iid =
      some { item with remaining_count := item.remaining_count - 1 } ∧
    (book_item s mid iid).2.next_booking_id = s.next_booking_id + 1 :=
  book_effects s mid iid member item hm hi hcap havail

/-- Witness for C3 on `sampleStore`. -/
theorem C3_create_success_witness :
    sampleStore.findMember 1 =
      some ⟨1, "Ann", "Lee", 1, ⟨2024, 1, 5, 10, 0, 0⟩⟩ ∧
    sampleStore.findItem 1 =
      some ⟨1, "Chair", "Oak", 2, ⟨2025, 12, 31, 0, 0, 0⟩⟩ ∧
    ((book_item sampleStore 1 1).1 = .success sampleStore.next_booking_id ∧
     (book_item sampleStore 1 1).2.bookings =
       sampleStore.bookings ++ [⟨sampleStore.next_booking_id, 1, 1⟩] ∧
     (book_item sampleStore 1 1).2.findMember 1 =
       some ⟨1, "Ann", "Lee", 2, ⟨2024, 1, 5, 10, 0, 0⟩⟩ ∧
     (book_item sampleStore 1 1).2.findItem 1 =
       some ⟨1, "Chair", "Oak", 1, ⟨2025, 12, 31, 0, 0, 0⟩⟩ ∧
     (book_item sampleStore 1 1).2.next_booking_id =
       sampleStore.next_booking_id + 1) :=
  ⟨by decide, by decide,
   C3_create_success sampleStore 1 1
     ⟨1, "Ann", "Lee", 1, ⟨2024, 1, 5, 10, 0, 0⟩⟩
     ⟨1, "Chair", "Oak", 2, ⟨2025, 12, 31, 0, 0, 0⟩⟩
     (by decide) (by decide) (by decide) (by decide)⟩

/-- Claim C4: cancelling an existing booking succeeds and, on the single
returned (committed) store, deletes that booking row, decrements the
linked member's `booking_count` by one and increments the linked item's
`remaining_count` by one — with no lower-bound guard on the decrement, so
`booking_count` can become negative (see the witness); cancelling a
missing booking id returns `notFound` with the store unchanged. -/
theorem C4_cancel (s : Store) (bid : Nat) :
    (s.findBooking bid = none → cancel_booking s bid = (.notFound, s)) ∧
    (∀ bk, s.findBooking bid = some bk →
      (cancel_booking s bid).1 = .success ∧
      (cancel_booking s bid).2.bookings =
        (s.bookings.filter fun b => b.id != bk.id) ∧
      (∀ member, s.findMember bk.member_id = some member →
        (cancel_booking s bid).2.findMember bk.member_id =
          some { member with booking_count := member.booking_count - 1 }) ∧
      (∀ item, s.findItem bk.inventory_id = some item →
        (cancel_booking s bid).2.findItem bk.inventory_id =
          some { item with remaining_count := item.remaining_count + 1 })) := by
  constructor
  · intro h
    simp [cancel_booking, h]
  · intro bk hb
    rw [cancel_booking_found s bid bk hb]
    refine ⟨rfl, rfl, ?_, ?_⟩
    · intro member hmem
      simp only [Store.findMember] at hmem ⊢
      rw [find?_map_comm _ _
        (fun a => by by_cases h : a.id = bk.member_id <;> simp [h]) s.members]
      rw [hmem]
      have heq : member.id = bk.member_id := by
        simpa using List.find?_some hmem
      simp [heq]
    · intro item hitem
      simp only [Store.findItem] at hitem ⊢
      rw [find?_map_comm _ _
        (fun a => by by_cases h : a.id = bk.inventory_id <;> simp [h])
        s.inventory]
      rw [hitem]
      have heq : item.id = bk.inventory_id := by
        simpa using List.find?_some hitem
      simp [heq]

/-- Witness for C4: cancelling booking 9999 (absent) changes nothing;
cancelling booking 1 of `inconsistentStore`, whose member already has
`booking_count = 0`, drives the count to `-1` — the unguarded
decrement. -/
theorem C4_cancel_witness :
    sampleStore.findBooking 9999 = none ∧
    cancel_booking sampleStore 9999 = (.notFound, sampleStore) ∧
    inconsistentStore.findBooking 1 = some ⟨1, 1, 1⟩ ∧
    inconsistentStore.findMember 1 =
      some ⟨1, "Ann", "Lee", 0, ⟨2024, 1, 5, 10, 0, 0⟩⟩ ∧
    (cancel_booking inconsistentStore 1).2.findMember 1 =
      some ⟨1, "Ann", "Lee", 0 - 1, ⟨2024, 1, 5, 10, 0, 0⟩⟩ :=
  ⟨by decide,
   (C4_cancel sampleStore 9999).1 (by decide),
   by decide,
   by decide,
   ((C4_cancel inconsistentStore 1).2 ⟨1, 1, 1⟩ (by decide)).2.2.1
     ⟨1, "Ann", "Lee", 0, ⟨2024, 1, 5, 10, 0, 0⟩⟩ (by decide)⟩

/-- Claim C5: whenever `book_item` succeeds, immediately cancelling the
returned booking id restores the member table, the inventory table and the
booking table to their pre-create state (in particular that member's
`booking_count` and that item's `remaining_count`), and the new booking
row no longer exists.  The freshness hypothesis on existing booking ids is
what the autoincrement primary key guarantees (it is part of `StoreWf` and
holds in every state built by the operations). -/
theorem C5_roundtrip (s : Store) (mid iid : Nat) (member : Member)
    (item : Inventory) (hm : s.findMember mid = some member)
    (hi : s.findItem iid = some item)
    (hcap : member.booking_count < MAX_BOOKINGS)
    (havail : 0 < item.remaining_count)
    (hfresh : ∀ b ∈ s.bookings, b.id < s.next_booking_id) :
    (book_item s mid iid).1 = .success s.next_booking_id ∧
    (cancel_booking (book_item s mid iid).2 s.next_booking_id).1 =
      .success ∧
    (cancel_booking (book_item s mid iid).2 s.next_booking_id).2.members =
      s.members ∧
    (cancel_booking (book_item s mid iid).2
        s.next_booking_id).2.inventory = s.inventory ∧
    (cancel_booking (book_item s mid iid).2
        s.next_booking_id).2.bookings = s.bookings ∧
    (cancel_booking (book_item s mid iid).2
        s.next_booking_id).2.findBooking s.next_booking_id = none := by
  have hbook := book_item_success s mid iid member item hm hi hcap havail
  have h1 : s.bookings.find? (fun b => b.id == s.next_booking_id) = none :=
    List.find?_eq_none.mpr fun b hb => by
      simp [Nat.ne_of_lt (hfresh b hb)]
  have hfind : (book_item s mid iid).2.findBooking s.next_booking_id =
      some ⟨s.next_booking_id, member.id, item.id⟩ := by
    rw [hbook]
    simp only [Store.findBooking]
    rw [List.find?_append, h1]
    simp
  have hcancel := cancel_booking_found (book_item s mid iid).2
    s.next_booking_id ⟨s.next_booking_id, member.id, item.id⟩ hfind
  have hmembers : (cancel_booking (book_item s mid iid).2
      s.next_booking_id).2.members = s.members := by
    rw [hcancel, hbook]
    show ((s.members.map _).map _) = s.members
    rw [List.map_map]
    conv_rhs => rw [← List.map_id s.members]
    refine List.map_congr_left fun a _ => ?_
    simp only [Function.comp_apply, id_eq]
    by_cases h : a.id = member.id
    · simp [h]
      rw [← h]
    · simp [h]
  have hinventory : (cancel_booking (book_item s mid iid).2
      s.next_booking_id).2.inventory = s.inventory := by
    rw [hcancel, hbook]
    show ((s.inventory.map _).map _) = s.inventory
    rw [List.map_map]
    conv_rhs => rw [← List.map_id s.inventory]
    refine List.map_congr_left fun a _ => ?_
    simp only [Function.comp_apply, id_eq]
    by_cases h : a.id = item.id
    · simp [h]
      rw [← h]
    · simp [h]
  have hbookings : (cancel_booking (book_item s mid iid).2
      s.next_booking_id).2.bookings = s.bookings := by
    rw [hcancel, hbook]
    show (s.bookings ++
        [(⟨s.next_booking_id, member.id, item.id⟩ : Booking)]).filter
        (fun b => b.id != s.next_booking_id) = s.bookings
    rw [List.filter_append]
    have h2 : s.bookings.filter
        (fun b => b.id != s.next_booking_id) = s.bookings :=
      List.filter_eq_self.mpr fun b hb => by
        simp [Nat.ne_of_lt (hfresh b hb)]
    rw [h2]
    simp
  have hnone : (cancel_booking (book_item s mid iid).2
      s.next_booking_id).2.findBooking s.next_booking_id = none := by
    simp only [Store.findBooking]
    rw [hbookings]
    exact h1
  refine ⟨by rw [hbook], by rw [hcancel], hmembers, hinventory,
    hbookings, hnone⟩

/-- Witness for C5 on `sampleStore`: book then cancel restores the exact
tables. -/
theorem C5_roundtrip_witness :
    sampleStore.findMember 1 =
      some ⟨1, "Ann", "Lee", 1, ⟨2024, 1, 5, 10, 0, 0⟩⟩ ∧
    sampleStore.findItem 1 =
      some ⟨1, "Chair", "Oak", 2, ⟨2025, 12, 31, 0, 0, 0⟩⟩ ∧
    (∀ b ∈ sampleStore.bookings, b.id < sampleStore.next_booking_id) ∧
    ((book_item sampleStore 1 1).1 =
        .success sampleStore.next_booking_id ∧
     (cancel_booking (book_item sampleStore 1 1).2
        sampleStore.next_booking_id).1 = .success ∧
     (cancel_booking (book_item sampleStore 1 1).2
        sampleStore.next_booking_id).2.members = sampleStore.members ∧
     (cancel_booking (book_item sampleStore 1 1).2
        sampleStore.next_booking_id).2.inventory = sampleStore.inventory ∧
     (cancel_booking (book_item sampleStore 1 1).2
        sampleStore.next_booking_id).2.bookings = sampleStore.bookings ∧
     (cancel_booking (book_item sampleStore 1 1).2
        sampleStore.next_booking_id).2.findBooking
        sampleStore.next_booking_id = none) :=
  ⟨by decide, by decide, by decide,
   C5_roundtrip sampleStore 1 1
     ⟨1, "Ann", "Lee", 1, ⟨2024, 1, 5, 10, 0, 0⟩⟩
     ⟨1, "Chair", "Oak", 2, ⟨2025, 12, 31, 0, 0, 0⟩⟩
     (by decide) (by decide) (by decide) (by decide) (by decide)⟩

theorem findSome?_eq_orElse {α β : Type} (f : α → Option β) (a : α)
    (l : List α) :
    List.findSome? f (a :: l) = (f a).orElse fun _ => List.findSome? f l := by
  rw [List.findSome?_cons]
  cases f a <;> rfl

/-- Claim C6: `parse_date` strips its (stringified) input once and then
tries exactly the six formats in source order with the first success
winning (the `orElse` chain); every one of the six formats rejects
`31/02/2024` — which does match the `%d/%m/%Y` regex shape, so the
rejection is the calendar-validity check — hence `parse_date` fails on
it; and a row whose date fails to parse is skipped while iteration
continues, contributing zero records, in both import passes. -/
theorem C6_date_formats :
    (∀ v : Option String, parse_date v =
      ((strptime .isoT (pyStrip (pyStr v))).orElse fun _ =>
       (strptime .dmySlash (pyStrip (pyStr v))).orElse fun _ =>
       (strptime .dmyDash (pyStrip (pyStr v))).orElse fun _ =>
       (strptime .ymd (pyStrip (pyStr v))).orElse fun _ =>
       (strptime .dmy2Slash (pyStrip (pyStr v))).orElse fun _ =>
       strptime .dmy2Dash (pyStrip (pyStr v)))) ∧
    (∀ fmt ∈ formats, strptime fmt "31/02/2024" = none) ∧
    shapeMatch .dmySlash "31/02/2024".data ≠ [] ∧
    parse_date (some "31/02/2024") = none ∧
    (∀ (pre post : List MemberRow) (row : MemberRow),
      parse_date row.date_joined = none →
      importMemberRows (pre ++ row :: post) =
        importMemberRows pre ++ importMemberRows post) ∧
    (∀ (pre post : List InventoryRow) (row : InventoryRow),
      parse_date row.expiration_date = none →
      importInventoryRows (pre ++ row :: post) =
        importInventoryRows pre ++ importInventoryRows post) := by
  refine ⟨?_, by decide, by decide, by decide, ?_, ?_⟩
  · intro v
    simp only [parse_date, formats]
    rw [findSome?_eq_orElse, findSome?_eq_orElse, findSome?_eq_orElse,
      findSome?_eq_orElse, findSome?_eq_orElse, findSome?_eq_orElse]
    simp only [List.findSome?_nil]
    cases strptime .dmy2Dash (pyStrip (pyStr v)) <;> rfl
  · intro pre post row h
    simp only [importMemberRows, List.filterMap_append, List.filterMap_cons,
      parseMemberRow, h]
  · intro pre post row h
    simp only [importInventoryRows, List.filterMap_append,
      List.filterMap_cons, parseInventoryRow, h]

/-- Witness for C6: the chain equation at a concrete input, one format's
rejection of `31/02/2024`, and a concrete three-row members pass in which
the middle row (date `31/02/2024`) is skipped while the surrounding rows
are imported. -/
theorem C6_date_formats_witness :
    (parse_date (some "05/02/2024") =
      ((strptime .isoT (pyStrip (pyStr (some "05/02/2024")))).orElse fun _ =>
       (strptime .dmySlash (pyStrip (pyStr (some "05/02/2024")))).orElse
         fun _ =>
       (strptime .dmyDash (pyStrip (pyStr (some "05/02/2024")))).orElse
         fun _ =>
       (strptime .ymd (pyStrip (pyStr (some "05/02/2024")))).orElse fun _ =>
       (strptime .dmy2Slash (pyStrip (pyStr (some "05/02/2024")))).orElse
         fun _ =>
       strptime .dmy2Dash (pyStrip (pyStr (some "05/02/2024"))))) ∧
    strptime .dmySlash "31/02/2024" = none ∧
    importMemberRows
        ([⟨some "Ann", some "Lee", some "0",
            some "2024-01-05T10:00:00"⟩] ++
          ⟨some "Bob", some "Roe", some "1", some "31/02/2024"⟩ ::
          [⟨some "Cyd", some "Poe", some "2", some "05/02/2024"⟩]) =
      importMemberRows
          [⟨some "Ann", some "Lee", some "0",
             some "2024-01-05T10:00:00"⟩] ++
        importMemberRows
          [⟨some "Cyd", some "Poe", some "2", some "05/02/2024"⟩] :=
  ⟨C6_date_formats.1 (some "05/02/2024"),
   C6_date_formats.2.1 .dmySlash (by decide),
   C6_date_formats.2.2.2.2.1
     [⟨some "Ann", some "Lee", some "0", some "2024-01-05T10:00:00"⟩]
     [⟨some "Cyd", some "Poe", some "2", some "05/02/2024"⟩]
     ⟨some "Bob", some "Roe", some "1", some "31/02/2024"⟩
     (by decide)⟩

/-- Claim C7: a missing source file makes the whole import return the
`SourceNotFound`-style error for the affected pass with the committed
store unchanged (rows already parsed in the members pass are never
committed), while a successful import performs the single commit of both
passes at once — the returned store is either exactly the input store (on
error) or the input store with both record batches appended (on success),
so a state with only members or only inventory committed is never
observable. -/
theorem C7_import_atomic (memberCsv : Option (List MemberRow))
    (inventoryCsv : Option (List InventoryRow)) (s : Store) :
    (memberCsv = none →
      import_data memberCsv inventoryCsv s = (.memberCsvNotFound, s)) ∧
    (∀ mrows, memberCsv = some mrows → inventoryCsv = none →
      import_data memberCsv inventoryCsv s = (.inventoryCsvNotFound, s)) ∧
    (∀ mrows irows, memberCsv = some mrows → inventoryCsv = some irows →
      import_data memberCsv inventoryCsv s =
        (.success,
         { s with
           members := s.members ++
             commitMembers s.next_member_id (importMemberRows mrows),
           inventory := s.inventory ++
             commitInventory s.next_inventory_id
               (importInventoryRows irows),
           next_member_id :=
             s.next_member_id + (importMemberRows mrows).length,
           next_inventory_id :=
             s.next_inventory_id + (importInventoryRows irows).length })) := by
  refine ⟨?_, ?_, ?_⟩
  · intro h
    subst h
    rfl
  · intro mrows hm hi
    subst hm
    subst hi
    rfl
  · intro mrows irows hm hi
    subst hm
    subst hi
    rfl

/-- Witness for C7: each of the three branches on concrete inputs — a
missing members source, a missing inventory source (after a non-empty
members pass, which is discarded), and a successful two-row import into
the empty store. -/
theorem C7_import_atomic_witness :
    import_data none
        (some [⟨some "Chair", some "Oak", some "2", some "31/12/2025"⟩])
        emptyStore = (.memberCsvNotFound, emptyStore) ∧
    import_data
        (some [⟨some "Ann", some "Lee", some "0",
          some "2024-01-05T10:00:00"⟩]) none emptyStore =
      (.inventoryCsvNotFound, emptyStore) ∧
    import_data
        (some [⟨some "Ann", some "Lee", some "0",
          some "2024-01-05T10:00:00"⟩])
        (some [⟨some "Chair", some "Oak", some "2", some "31/12/2025"⟩])
        emptyStore =
      (.success,
       { emptyStore with
         members := emptyStore.members ++
           commitMembers emptyStore.next_member_id
             (importMemberRows
               [⟨some "Ann", some "Lee", some "0",
                 some "2024-01-05T10:00:00"⟩]),
         inventory := emptyStore.inventory ++
           commitInventory emptyStore.next_inventory_id
             (importInventoryRows
               [⟨some "Chair", some "Oak", some "2", some "31/12/2025"⟩]),
         next_member_id := emptyStore.next_member_id +
           (importMemberRows
             [⟨some "Ann", some "Lee", some "0",
               some "2024-01-05T10:00:00"⟩]).length,
         next_inventory_id := emptyStore.next_inventory_id +
           (importInventoryRows
             [⟨some "Chair", some "Oak", some "2",
               some "31/12/2025"⟩]).length }) :=
  ⟨(C7_import_atomic none
      (some [⟨some "Chair", some "Oak", some "2", some "31/12/2025"⟩])
      emptyStore).1 rfl,
   (C7_import_atomic
      (some [⟨some "Ann", some "Lee", some "0",
        some "2024-01-05T10:00:00"⟩]) none emptyStore).2.1 _ rfl rfl,
   (C7_import_atomic
      (some [⟨some "Ann", some "Lee", some "0",
        some "2024-01-05T10:00:00"⟩])
      (some [⟨some "Chair", some "Oak", some "2", some "31/12/2025"⟩])
      emptyStore).2.2 _ _ rfl rfl⟩

/-- Claim C8: text fields are handled by `safe_text` — missing or empty
input gives the empty string, anything else is stripped — and integer
fields by `safe_int` — missing, empty, whitespace-only, or non-numeric
input gives 0 and a numeric string gives its value — and neither can make
a row be skipped: a member row whose date parses is always imported, with
exactly these field values. -/
theorem C8_field_defaults :
    safe_text none = "" ∧
    safe_text (some "") = "" ∧
    (∀ s : String, s ≠ "" → safe_text (some s) = pyStrip s) ∧
    safe_int none = 0 ∧
    (∀ s : String, pyStrip s = "" → safe_int (some s) = 0) ∧
    (∀ s : String, pythonInt (pyStrip s) = none → safe_int (some s) = 0) ∧
    (∀ (s : String) (n : Int), pythonInt (pyStrip s) = some n →
      safe_int (some s) = n) ∧
    (∀ (row : MemberRow) (d : DateTime),
      parse_date row.date_joined = some d →
      parseMemberRow row = some ⟨safe_text row.name, safe_text row.surname,
        safe_int row.booking_count, d⟩) := by
  refine ⟨rfl, rfl, ?_, rfl, ?_, ?_, ?_, ?_⟩
  · intro s hs
    simp [safe_text, hs]
  · intro s hs
    by_cases h0 : s = ""
    · simp [safe_int, h0]
    · simp [safe_int, h0, hs]
  · intro s hp
    by_cases h0 : s = ""
    · simp [safe_int, h0]
    · by_cases h1 : pyStrip s = ""
      · simp [safe_int, h0, h1]
      · simp [safe_int, h0, h1, hp]
  · intro s n hp
    have hn : pythonInt (pyStrip "") = none := by decide
    have h0 : s ≠ "" := by
      intro h
      subst h
      rw [hn] at hp
      simp at hp
    have h1 : pyStrip s ≠ "" := by
      intro h
      rw [h] at hp
      rw [show pyStrip "" = "" from rfl] at hn
      rw [hn] at hp
      simp at hp
    simp [safe_int, h0, h1, hp]
  · intro row d h
    simp [parseMemberRow, h]

/-- Witness for C8 on concrete field values: `"  Ann  "` is stripped,
`"   "` and `"abc"` default to 0, `" 12 "` parses to 12, and a member row
with a malformed `booking_count` is still imported (with count 0) because
only the date can fail a row. -/
theorem C8_field_defaults_witness :
    safe_text (some "  Ann  ") = pyStrip "  Ann  " ∧
    safe_int (some "   ") = 0 ∧
    safe_int (some "abc") = 0 ∧
    safe_int (some " 12 ") = 12 ∧
    parseMemberRow ⟨some "Ann", some "Lee", some "abc",
        some "2024-01-05T10:00:00"⟩ =
      some ⟨safe_text (some "Ann"), safe_text (some "Lee"),
        safe_int (some "abc"), ⟨2024, 1, 5, 10, 0, 0⟩⟩ :=
  ⟨C8_field_defaults.2.2.1 "  Ann  " (by decide),
   C8_field_defaults.2.2.2.2.1 "   " (by decide),
   C8_field_defaults.2.2.2.2.2.1 "abc" (by decide),
   C8_field_defaults.2.2.2.2.2.2.1 " 12 " 12 (by decide),
   C8_field_defaults.2.2.2.2.2.2.2
     ⟨some "Ann", some "Lee", some "abc", some "2024-01-05T10:00:00"⟩
     ⟨2024, 1, 5, 10, 0, 0⟩ (by decide)⟩

/-- Claim C9: `book_item` never reads the item's `expiration_date`: for
any member and item passing the existence and capacity checks, the
booking succeeds (returning the new booking id) no matter what value —
in particular an already-past timestamp — the item's expiration date is
replaced with. -/
theorem C9_expiration_ignored (s : Store) (mid iid : Nat)
    (member : Member) (item : Inventory) (d : DateTime)
    (hm : s.findMember mid = some member)
    (hi : s.findItem iid = some item)
    (hcap : member.booking_count < MAX_BOOKINGS)
    (havail : 0 < item.remaining_count) :
    (book_item (set_item_expiration s iid d) mid iid).1 =
      .success s.next_booking_id := by
  have hm' : (set_item_expiration s iid d).findMember mid = some member := hm
  have hi' : (set_item_expiration s iid d).findItem iid =
      some { item with expiration_date := d } := by
    simp only [Store.findItem, set_item_expiration] at hi ⊢
    rw [find?_map_comm _ _
      (fun a => by by_cases h : a.id = iid <;> simp [h]) s.inventory]
    rw [hi]
    have heq : item.id = iid := by
      simpa using List.find?_some hi
    simp [heq]
  have := book_item_success (set_item_expiration s iid d) mid iid member
    { item with expiration_date := d } hm' hi' hcap havail
  rw [this]
  rfl

/-- Witness for C9 on `sampleStore` with the expiration date forced to
the epoch (1970-01-01, far in the past): the booking still succeeds. -/
theorem C9_expiration_ignored_witness :
    sampleStore.findMember 1 =
      some ⟨1, "Ann", "Lee", 1, ⟨2024, 1, 5, 10, 0, 0⟩⟩ ∧
    sampleStore.findItem 1 =
      some ⟨1, "Chair", "Oak", 2, ⟨2025, 12, 31, 0, 0, 0⟩⟩ ∧
    (book_item (set_item_expiration sampleStore 1 ⟨1970, 1, 1, 0, 0, 0⟩)
        1 1).1 = .success sampleStore.next_booking_id :=
  ⟨by decide, by decide,
   C9_expiration_ignored sampleStore 1 1
     ⟨1, "Ann", "Lee", 1, ⟨2024, 1, 5, 10, 0, 0⟩⟩
     ⟨1, "Chair", "Oak", 2, ⟨2025, 12, 31, 0, 0, 0⟩⟩
     ⟨1970, 1, 1, 0, 0, 0⟩ (by decide) (by decide) (by decide) (by decide)⟩

/-- Claim C10: no uniqueness is enforced on the (member, item) pair: from
any state whose member has `booking_count ≤ 0` and whose item has
`remaining_count ≥ 2`, two successive `book_item` calls with the same
member id and item id both succeed and leave two booking rows with
distinct primary keys, both linking that same member to that same item. -/
theorem C10_no_pair_uniqueness (s : Store) (mid iid : Nat)
    (member : Member) (item : Inventory)
    (hm : s.findMember mid = some member)
    (hi : s.findItem iid = some item)
    (hbc : member.booking_count ≤ 0)
    (hrc : 2 ≤ item.remaining_count) :
    (book_item s mid iid).1 = .success s.next_booking_id ∧
    (book_item (book_item s mid iid).2 mid iid).1 =
      .success (s.next_booking_id + 1) ∧
    s.next_booking_id ≠ s.next_booking_id + 1 ∧
    (⟨s.next_booking_id, member.id, item.id⟩ : Booking) ∈
      (book_item (book_item s mid iid).2 mid iid).2.bookings ∧
    (⟨s.next_booking_id + 1, member.id, item.id⟩ : Booking) ∈
      (book_item (book_item s mid iid).2 mid iid).2.bookings := by
  have hcap1 : member.booking_count < MAX_BOOKINGS := by
    simp only [MAX_BOOKINGS]
    omega
  have havail1 : 0 < item.remaining_count := by omega
  have he1 := book_effects s mid iid member item hm hi hcap1 havail1
  obtain ⟨hr1, hbks1, hm1, hi1, hnext1⟩ := he1
  have hcap2 : ({ member with
      booking_count := member.booking_count + 1 } : Member).booking_count <
      MAX_BOOKINGS := by
    simp only [MAX_BOOKINGS]
    omega
  have havail2 : 0 < ({ item with
      remaining_count := item.remaining_count - 1 } :
      Inventory).remaining_count := by
    show 0 < item.remaining_count - 1
    omega
  have he2 := book_effects (book_item s mid iid).2 mid iid
    { member with booking_count := member.booking_count + 1 }
    { item with remaining_count := item.remaining_count - 1 }
    hm1 hi1 hcap2 havail2
  obtain ⟨hr2, hbks2, _, _, _⟩ := he2
  rw [hnext1] at hr2
  refine ⟨hr1, hr2, by omega, ?_, ?_⟩
  · rw [hbks2, hbks1]
    simp
  · rw [hbks2, hbks1, hnext1]
    simp

/-- Witness for C10 on `freshStore` (member with no bookings, item with
two units): booking twice from the same member for the same item yields
bookings 1 and 2, both rows present. -/
theorem C10_no_pair_uniqueness_witness :
    freshStore.findMember 1 =
      some ⟨1, "Ann", "Lee", 0, ⟨2024, 1, 5, 10, 0, 0⟩⟩ ∧
    freshStore.findItem 1 =
      some ⟨1, "Chair", "Oak", 2, ⟨2025, 12, 31, 0, 0, 0⟩⟩ ∧
    ((book_item freshStore 1 1).1 = .success freshStore.next_booking_id ∧
     (book_item (book_item freshStore 1 1).2 1 1).1 =
       .success (freshStore.next_booking_id + 1) ∧
     freshStore.next_booking_id ≠ freshStore.next_booking_id + 1 ∧
     (⟨freshStore.next_booking_id, 1, 1⟩ : Booking) ∈
       (book_item (book_item freshStore 1 1).2 1 1).2.bookings ∧
     (⟨freshStore.next_booking_id + 1, 1, 1⟩ : Booking) ∈
       (book_item (book_item freshStore 1 1).2 1 1).2.bookings) :=
  ⟨by decide, by decide,
   C10_no_pair_uniqueness freshStore 1 1
     ⟨1, "Ann", "Lee", 0, ⟨2024, 1, 5, 10, 0, 0⟩⟩
     ⟨1, "Chair", "Oak", 2, ⟨2025, 12, 31, 0, 0, 0⟩⟩
     (by decide) (by decide) (by decide) (by decide)⟩


end BookingApp
